import Mathlib

/-!
Shallow embedding of the `cmd_makecldf` transform of `cldfbench_ewave.py`
(the eWAVE CLDF dataset builder), together with theorems checking the
specification's claims about it.

Rows of the various CSV tables are modelled as structures holding the fields
the transform reads or writes; Python dicts are modelled as association-list
lookups where a later binding for the same key wins; `itertools.groupby` is
modelled by grouping consecutive elements with equal key; `sorted` with a
tuple key is modelled by the stable `List.mergeSort` under the lexicographic
order of the key tuple.
-/

namespace EWave

/-- Decimal value of a digit string, most significant digit first. -/
def parseNat (l : List Char) : Nat := l.foldl (fun n c => 10 * n + (c.toNat - 48)) 0

/-- Python `int(s)` applied to the numeric-string fields of the association
tables: an optional leading minus sign followed by decimal digits.  Python
raises `ValueError` on non-numeric input, a case no claim exercises; here the
digit-folding simply proceeds over whatever characters are present. -/
def pyInt (s : String) : Int :=
  match s.data with
  | '-' :: rest => - (parseNat rest : Int)
  | l => (parseNat l : Int)

/-- Python `v or dflt` for strings: the empty string is falsy. -/
def pyOr (v dflt : String) : String := if v = "" then dflt else v

/-- Python `s.replace('?', 'NA')`: the pattern is a single character, so the
replacement expands each occurrence of `'?'` to `"NA"` and keeps every other
character. -/
def replaceQ (s : String) : String :=
  String.mk (s.data.flatMap fun c => if c = '?' then ['N', 'A'] else [c])

/-- Python `s.replace(a, b)` for single characters `a`, `b`. -/
def replCh (a b : Char) (s : String) : String :=
  String.mk (s.data.map fun c => if c = a then b else c)

/-- A Python dict built from a list of key-value pairs (a later binding for
the same key wins), read back with `d[k]` (`some`) or a failed lookup
(`none`, a `KeyError` in Python). -/
def pyDict (pairs : List (String × β)) : String → Option β :=
  fun k => pairs.reverse.lookup k

/-- `itertools.groupby`: splits a list into maximal runs of consecutive
elements sharing the same key, pairing each run with its key. -/
def groupConsec (key : α → String) : List α → List (String × List α)
  | [] => []
  | a :: rest =>
    match groupConsec key rest with
    | [] => [(key a, [a])]
    | (k, g) :: gs =>
      if key a = k then (k, a :: g) :: gs else (key a, [a]) :: (k, g) :: gs

/-- Python `sorted(rows, key=keyf)` where `keyf` returns a tuple: a stable
sort under the lexicographic order of the key.  Python's sort is stable, and
every stable sort of a list under the same total preorder produces the same
output, so the stable `List.insertionSort` models it faithfully. -/
def pySorted [LinearOrder κ] (key : α → κ) (rows : List α) : List α :=
  rows.insertionSort fun a b => key a ≤ key b

/-- A loop body that can raise `KeyError`, run over a whole table: the run
aborts (returns `none`) as soon as one row fails. -/
def mapOpt (f : α → Option β) : List α → Option (List β)
  | [] => some []
  | a :: rest =>
    match f a, mapOpt f rest with
    | some b, some bs => some (b :: bs)
    | _, _ => none

/-! ### cc.csv → Language→Contributor grouping -/

/-- A row of `cc.csv`, read positionally: `r[0]` the language (contribution)
id, `r[1]` the contributor id, `r[2]` the ordering field. -/
structure CCRow where
  c0 : String
  c1 : String
  c2 : String
deriving DecidableEq

/-- Sort key `(int(r[0]), int(r[2]), int(r[1]))` of the `cc` grouping. -/
def ccKey (r : CCRow) : Int ×ₗ Int ×ₗ Int :=
  toLex (pyInt r.c0, toLex (pyInt r.c2, pyInt r.c1))

/-- `cc = {cid: [r[1] for r in rows] for cid, rows in groupby(sorted(cc.csv,
key=(int(r[0]), int(r[2]), int(r[1]))), key=r[0])}`. -/
def cc (rows : List CCRow) : String → Option (List String) :=
  pyDict ((groupConsec (fun r => r.c0) (pySorted ccKey rows)).map
    fun p => (p.1, p.2.map fun r => r.c1))

/-! ### examplesource.csv → Example→Source grouping -/

/-- A row of `examplesource.csv` (read as dicts): fields `example`, `source`,
`description`. -/
structure ESRow where
  ex : String
  source : String
  description : String
deriving DecidableEq

/-- Modelled from the spec: pycldf's `Reference` string form (the class is a
library dependency, not part of src/) renders the source key followed by the
description wrapped in the citation markup's square brackets. -/
def referenceStr (source desc : String) : String :=
  source ++ "[" ++ desc ++ "]"

/-- The cleaned description used by `ref`:
`r['description'].replace('[', '(').replace(']', ')')`. -/
def refDesc (r : ESRow) : String :=
  replCh ']' ')' (replCh '[' '(' r.description)

/-- `ref(r) = str(Reference(r['source'], r['description'].replace('[',
'(').replace(']', ')')))`. -/
def ref (r : ESRow) : String := referenceStr r.source (refDesc r)

/-- Sort key `(int(d['example']), d['source'])` of the `examplesource`
grouping.  Python compares the `source` strings lexicographically by code
point, which is the lexicographic order on their character lists. -/
def esKey (r : ESRow) : Int ×ₗ List Char := toLex (pyInt r.ex, r.source.data)

/-- `examplesource = {eid: [ref(r) for r in rows] for eid, rows in
groupby(sorted(examplesource.csv, key=(int(d['example']), d['source'])),
key=d['example'])}`. -/
def examplesource (rows : List ESRow) : String → Option (List String) :=
  pyDict ((groupConsec (fun r => r.ex) (pySorted esKey rows)).map
    fun p => (p.1, p.2.map ref))

/-! ### valueexample.csv → Value→Example-sentence grouping -/

/-- A row of `valueexample.csv` (read as dicts): fields `value`, `sentence`. -/
structure VERow where
  value : String
  sentence : String
deriving DecidableEq

/-- Sort key `(int(d['value']), int(d['sentence']))` of the `valuesentence`
grouping. -/
def veKey (r : VERow) : Int ×ₗ Int := toLex (pyInt r.value, pyInt r.sentence)

/-- `valuesentence = {vid: [r['sentence'] for r in rows] for vid, rows in
groupby(sorted(valueexample.csv, key=(int(d['value']), int(d['sentence']))),
key=d['value'])}`. -/
def valuesentence (rows : List VERow) : String → Option (List String) :=
  pyDict ((groupConsec (fun r => r.value) (pySorted veKey rows)).map
    fun p => (p.1, p.2.map fun r => r.sentence))

/-! ### LanguageTable enrichment -/

/-- A `LanguageTable` row with the columns the transform touches; `Name`
stands for the untouched pass-through columns. -/
structure LRow where
  ID : String
  Name : String
  Region_ID : String
  Type_ID : String
  abbr : String
  Description : String
  Contributor_ID : List String
deriving DecidableEq

/-- A row of `variety.csv`, read positionally: id then the tail
`r[1:] = (Region_ID, Type_ID, abbr, ...)`. -/
structure VarietyRow where
  id : String
  c1 : String
  c2 : String
  c3 : String
deriving DecidableEq

/-- `data = {r[0]: r[1:] for r in variety.csv}`. -/
def varietyDict (rows : List VarietyRow) : String → Option (String × String × String) :=
  pyDict (rows.map fun r => (r.id, (r.c1, r.c2, r.c3)))

/-- A row of `contributions.csv` (read as dicts): `ID`, `Description`. -/
structure ContributionRow where
  ID : String
  Description : String
deriving DecidableEq

/-- `desc = {r['ID']: r['Description'] for r in contributions.csv}`. -/
def descDict (rows : List ContributionRow) : String → Option String :=
  pyDict (rows.map fun r => (r.ID, r.Description))

/-- The `LanguageTable` loop body: each auxiliary lookup `data[row['ID']]`,
`desc[row['ID']]`, `cc[row['ID']]` raises `KeyError` (returns `none`) when
the row's ID is absent. -/
def transformLanguage (vdata : String → Option (String × String × String))
    (desc : String → Option String) (ccd : String → Option (List String))
    (r : LRow) : Option LRow :=
  match vdata r.ID, desc r.ID, ccd r.ID with
  | some v, some d, some contribs =>
    some { r with
      Region_ID := v.1, Type_ID := v.2.1, abbr := v.2.2,
      Description := d, Contributor_ID := contribs }
  | _, _, _ => none

/-- The `LanguageTable` loop over all rows. -/
def transformLanguages (vdata : String → Option (String × String × String))
    (desc : String → Option String) (ccd : String → Option (List String))
    (rows : List LRow) : Option (List LRow) :=
  mapOpt (transformLanguage vdata desc ccd) rows

/-! ### ParameterTable enrichment -/

/-- A `ParameterTable` row with the columns the transform touches; `Name`
stands for the untouched pass-through columns. -/
structure PRow where
  ID : String
  Name : String
  Example_Source : String
  Category_ID : String
  Attestation : String
  Pervasiveness : String
deriving DecidableEq

/-- A row of `feature.csv`, read positionally: id then the tail
`r[1:] = (Example_Source, Category_ID, Attestation, Pervasiveness)`. -/
structure FeatureRow where
  id : String
  c1 : String
  c2 : String
  c3 : String
  c4 : String
deriving DecidableEq

/-- `data = {r[0]: r[1:] for r in feature.csv}`. -/
def featureDict (rows : List FeatureRow) :
    String → Option (String × String × String × String) :=
  pyDict (rows.map fun r => (r.id, (r.c1, r.c2, r.c3, r.c4)))

/-- The `ParameterTable` loop body: `data[row['ID']]` raises `KeyError`
(returns `none`) when the row's ID is absent from `feature.csv`. -/
def transformParameter (fdata : String → Option (String × String × String × String))
    (r : PRow) : Option PRow :=
  match fdata r.ID with
  | some f =>
    some { r with
      Example_Source := f.1, Category_ID := f.2.1,
      Attestation := f.2.2.1, Pervasiveness := f.2.2.2 }
  | none => none

/-- The `ParameterTable` loop over all rows. -/
def transformParameters (fdata : String → Option (String × String × String × String))
    (rows : List PRow) : Option (List PRow) :=
  mapOpt (transformParameter fdata) rows

/-! ### ExampleTable augmentation -/

/-- An `ExampleTable` row with the columns the transform touches. -/
structure ExRow where
  ID : String
  Primary_Text : String
  Source : List String
deriving DecidableEq

/-- The `ExampleTable` loop body:
`row['Source'] = examplesource.get(row['ID'], [])` — an optional join, total,
yielding `[]` on a missing key. -/
def transformExample (es : String → Option (List String)) (r : ExRow) : ExRow :=
  { r with Source := (es r.ID).getD [] }

/-! ### CodeTable renumbering -/

/-- A `CodeTable` row with the columns the transform touches. -/
structure CRow where
  ID : String
  Parameter_ID : String
  Name : String
  Description : String
deriving DecidableEq

/-- The `CodeTable` loop body:
`row['ID'] = '{0}-{1}'.format(row['Parameter_ID'], row['Name'].replace('?', 'NA'))`. -/
def transformCode (r : CRow) : CRow :=
  { r with ID := r.Parameter_ID ++ "-" ++ replaceQ r.Name }

/-- The `CodeTable` loop over all rows. -/
def transformCodes (rows : List CRow) : List CRow := rows.map transformCode

/-! ### ValueTable renumbering -/

/-- A `ValueTable` row with the columns the transform touches. -/
structure VRow where
  ID : String
  Language_ID : String
  Parameter_ID : String
  Value : String
  Code_ID : String
  Example_ID : List String
deriving DecidableEq

/-- First mutation of the `ValueTable` loop body:
`row['Example_ID'] = valuesentence.get(row['ID'], [])` — keyed by the raw ID,
an optional join yielding `[]` on a missing key. -/
def valueStep1 (vs : String → Option (List String)) (r : VRow) : VRow :=
  { r with Example_ID := (vs r.ID).getD [] }

/-- Second mutation: `row['ID'] = '{0}-{1}'.format(row['Language_ID'],
row['Parameter_ID'])`. -/
def valueStep2 (r : VRow) : VRow :=
  { r with ID := r.Language_ID ++ "-" ++ r.Parameter_ID }

/-- Third mutation: `row['Code_ID'] = '{0}-{1}'.format(row['Parameter_ID'],
row['Value'] or 'NA')`. -/
def valueStep3 (r : VRow) : VRow :=
  { r with Code_ID := r.Parameter_ID ++ "-" ++ pyOr r.Value "NA" }

/-- The `ValueTable` loop body: the three mutations in source order. -/
def transformValue (vs : String → Option (List String)) (r : VRow) : VRow :=
  valueStep3 (valueStep2 (valueStep1 vs r))

/-- The `ValueTable` loop over all rows. -/
def transformValues (vs : String → Option (List String)) (rows : List VRow) :
    List VRow :=
  rows.map (transformValue vs)

/-! ### history.csv from changes.json -/

/-- One change tuple `[lid, pid, cid, _]` of an entry of `changes.json`. -/
structure Change where
  lid : String
  pid : String
  cid : String
  extra : String
deriving DecidableEq

/-- A row of the generated `history.csv`. -/
structure HistoryRow where
  Version : String
  Language_ID : String
  Parameter_ID : String
  Code_ID : String
deriving DecidableEq

/-- The history loop body: one appended row per change tuple. -/
def historyRow (c : Change) : HistoryRow :=
  { Version := "1.0", Language_ID := c.lid, Parameter_ID := c.pid,
    Code_ID := c.pid ++ "-" ++ replaceQ c.cid }

/-- `for lid, pid, cid, _ in read_json('changes.json')['2013']: ...` — the
whole mapping read from `changes.json`, indexed only at key `'2013'`
(a `KeyError`, i.e. `none`, if absent). -/
def historyRows (changes : String → Option (List Change)) :
    Option (List HistoryRow) :=
  (changes "2013").map (List.map historyRow)

/-! ### Helper lemmas -/

theorem mapOpt_length {f : α → Option β} :
    ∀ {l : List α} {out : List β}, mapOpt f l = some out → out.length = l.length := by
  intro l
  induction l with
  | nil =>
    intro out h
    simp only [mapOpt, Option.some.injEq] at h
    simp [← h]
  | cons a t ih =>
    intro out h
    unfold mapOpt at h
    cases hfa : f a with
    | none => rw [hfa] at h; exact absurd h (by simp)
    | some b =>
      cases hmt : mapOpt f t with
      | none => rw [hfa, hmt] at h; exact absurd h (by simp)
      | some bs =>
        rw [hfa, hmt] at h
        simp only [Option.some.injEq] at h
        simp [← h, ih hmt]

theorem mapOpt_isSome_iff {f : α → Option β} :
    ∀ (l : List α), (mapOpt f l).isSome ↔ ∀ a ∈ l, (f a).isSome := by
  intro l
  induction l with
  | nil => simp [mapOpt]
  | cons a t ih =>
    unfold mapOpt
    cases hfa : f a with
    | none => simp [hfa]
    | some b =>
      cases hmt : mapOpt f t with
      | none =>
        have : ¬ (mapOpt f t).isSome := by simp [hmt]
        simp only [hmt] at ih
        simp only [Option.isSome_some, Option.isSome_none, List.mem_cons]
        constructor
        · intro h; exact absurd h (by simp)
        · intro h
          exact absurd (ih.mpr fun x hx => h x (Or.inr hx)) (by simp)
      | some bs =>
        simp only [hmt] at ih
        simp [hfa, List.mem_cons]
        intro x hx
        exact (ih.mp (by simp)) x hx

theorem replaceQ_no_qmark (s : String) : ∀ c ∈ (replaceQ s).data, c ≠ '?' := by
  intro c hc
  have : c ∈ s.data.flatMap fun a => if a = '?' then ['N', 'A'] else [a] := hc
  rw [List.mem_flatMap] at this
  obtain ⟨a, _, hca⟩ := this
  by_cases h : a = '?'
  · rw [if_pos h] at hca
    simp only [List.mem_cons, List.not_mem_nil, or_false] at hca
    rcases hca with rfl | rfl <;> decide
  · rw [if_neg h] at hca
    simp only [List.mem_cons, List.not_mem_nil, or_false] at hca
    subst hca
    exact h

/-- Two sequential single-character replacements whose first target differs
from the second replacement's output act as one simultaneous map. -/
theorem refDesc_map (r : ESRow) :
    refDesc r = String.mk (r.description.data.map fun c =>
      if c = '[' then '(' else if c = ']' then ')' else c) := by
  unfold refDesc replCh
  apply String.ext
  show (r.description.data.map _).map _ = _
  rw [List.map_map]
  apply List.map_congr_left
  intro c _
  by_cases h1 : c = '[' <;> by_cases h2 : c = ']' <;> simp_all

theorem refDesc_no_brackets (r : ESRow) :
    ∀ c ∈ (refDesc r).data, c ≠ '[' ∧ c ≠ ']' := by
  rw [refDesc_map]
  intro c hc
  have : c ∈ r.description.data.map fun c =>
      if c = '[' then '(' else if c = ']' then ')' else c := hc
  rw [List.mem_map] at this
  obtain ⟨a, _, rfl⟩ := this
  by_cases h1 : a = '[' <;> by_cases h2 : a = ']' <;> simp_all

/-- Sorted lists (under a possibly non-antisymmetric relation) that are
permutations of each other are equal, provided the relation is antisymmetric
on the elements actually present. -/
theorem sorted_perm_eq {r : α → α → Prop} :
    ∀ {l1 l2 : List α}, l1.Perm l2 → l1.Pairwise r → l2.Pairwise r →
      (∀ a ∈ l1, ∀ b ∈ l1, r a b → r b a → a = b) → l1 = l2 := by
  intro l1
  induction l1 with
  | nil =>
    intro l2 hp _ _ _
    exact (hp.symm.eq_nil).symm
  | cons a t1 ih =>
    intro l2 hp h1 h2 hanti
    cases l2 with
    | nil => exact absurd hp.eq_nil (by simp)
    | cons b t2 =>
      have hab : a = b := by
        by_contra hne
        have ha2 : a ∈ b :: t2 := hp.mem_iff.mp (List.mem_cons_self a t1)
        have hb1 : b ∈ a :: t1 := hp.mem_iff.mpr (List.mem_cons_self b t2)
        have hat2 : a ∈ t2 := by
          rcases List.mem_cons.mp ha2 with h | h
          · exact absurd h hne
          · exact h
        have hbt1 : b ∈ t1 := by
          rcases List.mem_cons.mp hb1 with h | h
          · exact absurd h.symm hne
          · exact h
        have hrab : r a b := (List.pairwise_cons.mp h1).1 b hbt1
        have hrba : r b a := (List.pairwise_cons.mp h2).1 a hat2
        exact hne (hanti a (List.mem_cons_self a t1) b (List.mem_cons_of_mem a hbt1) hrab hrba)
      subst hab
      have hp' : t1.Perm t2 := hp.cons_inv
      have ht : t1 = t2 :=
        ih hp' (List.pairwise_cons.mp h1).2 (List.pairwise_cons.mp h2).2
          fun x hx y hy hxy hyx =>
            hanti x (List.mem_cons_of_mem a hx) y (List.mem_cons_of_mem a hy) hxy hyx
      rw [ht]

/-- A stable sort by a key is fully determined by the multiset of rows
whenever the key is injective on those rows. -/
theorem pySorted_perm_eq [LinearOrder κ] (key : α → κ) {l1 l2 : List α}
    (hp : l1.Perm l2) (hinj : ∀ a ∈ l1, ∀ b ∈ l1, key a = key b → a = b) :
    pySorted key l1 = pySorted key l2 := by
  haveI htot : IsTotal α fun a b => key a ≤ key b := ⟨fun a b => le_total _ _⟩
  haveI htrans : IsTrans α fun a b => key a ≤ key b := ⟨fun a b c => le_trans⟩
  have s1 : (pySorted key l1).Pairwise fun a b => key a ≤ key b :=
    List.sorted_insertionSort _ l1
  have s2 : (pySorted key l2).Pairwise fun a b => key a ≤ key b :=
    List.sorted_insertionSort _ l2
  have q1 : (pySorted key l1).Perm l1 := List.perm_insertionSort _ l1
  have q2 : (pySorted key l2).Perm l2 := List.perm_insertionSort _ l2
  apply sorted_perm_eq (q1.trans (hp.trans q2.symm)) s1 s2
  intro x hx y hy hxy hyx
  exact hinj x (q1.subset hx) y (q1.subset hy) (le_antisymm hxy hyx)

/-- Splitting a character list at a separator absent from both left parts is
unambiguous. -/
theorem append_cons_inj {c : Char} :
    ∀ {a1 a2 b1 b2 : List Char}, c ∉ a1 → c ∉ a2 →
      a1 ++ c :: b1 = a2 ++ c :: b2 → a1 = a2 ∧ b1 = b2 := by
  intro a1
  induction a1 with
  | nil =>
    intro a2 b1 b2 _ h2 h
    cases a2 with
    | nil => simpa using h
    | cons x t =>
      simp only [List.nil_append, List.cons_append, List.cons.injEq] at h
      exact absurd (h.1 ▸ List.mem_cons_self x t) h2
  | cons x t ih =>
    intro a2 b1 b2 h1 h2 h
    cases a2 with
    | nil =>
      simp only [List.nil_append, List.cons_append, List.cons.injEq] at h
      exact absurd (h.1 ▸ List.mem_cons_self x t) h1
    | cons y t2 =>
      simp only [List.cons_append, List.cons.injEq] at h
      obtain ⟨rfl, h'⟩ := h
      have hrec := ih (fun hm => h1 (List.mem_cons_of_mem x hm))
        (fun hm => h2 (List.mem_cons_of_mem x hm)) h'
      exact ⟨by rw [hrec.1], hrec.2⟩

/-- `l ++ "-" ++ p` determines `l` and `p` when neither `l` contains `'-'`. -/
theorem dash_append_inj {l1 p1 l2 p2 : String}
    (h1 : '-' ∉ l1.data) (h2 : '-' ∉ l2.data)
    (h : l1 ++ "-" ++ p1 = l2 ++ "-" ++ p2) : l1 = l2 ∧ p1 = p2 := by
  have hd : l1.data ++ '-' :: p1.data = l2.data ++ '-' :: p2.data := by
    have := congrArg String.data h
    simpa [String.data_append] using this
  have := append_cons_inj h1 h2 hd
  exact ⟨String.ext this.1, String.ext this.2⟩

/-! ### Claim theorems -/

/-- C1: for every raw ValueTable row processed by `cmd_makecldf`, the output
row's ID is `{Language_ID}-{Parameter_ID}`, and its Code_ID is
`{Parameter_ID}-{Value}` when the raw rating is non-empty and
`{Parameter_ID}-NA` (ending in `-NA`) when it is empty/falsy. -/
theorem value_row_id_and_code_id (vs : String → Option (List String)) (r : VRow) :
    (transformValue vs r).ID = r.Language_ID ++ "-" ++ r.Parameter_ID ∧
    (r.Value ≠ "" → (transformValue vs r).Code_ID = r.Parameter_ID ++ "-" ++ r.Value) ∧
    (r.Value = "" → (transformValue vs r).Code_ID = r.Parameter_ID ++ "-" ++ "NA" ∧
      (transformValue vs r).Code_ID = r.Parameter_ID ++ "-NA") := by
  refine ⟨rfl, ?_, ?_⟩
  · intro h
    simp [transformValue, valueStep1, valueStep2, valueStep3, pyOr, h]
  · intro h
    constructor
    · simp [transformValue, valueStep1, valueStep2, valueStep3, pyOr, h]
    · show r.Parameter_ID ++ "-" ++ pyOr r.Value "NA" = r.Parameter_ID ++ "-NA"
      rw [String.append_assoc]
      simp [pyOr, h]

theorem value_row_id_and_code_id_witness :
    ((VRow.mk "7" "L" "P" "" "" []).Value = "" ∧
      (transformValue (fun _ => none) (VRow.mk "7" "L" "P" "" "" [])).Code_ID = "P-NA") ∧
    ((VRow.mk "8" "L" "P" "A" "" []).Value ≠ "" ∧
      (transformValue (fun _ => none) (VRow.mk "8" "L" "P" "A" "" [])).Code_ID = "P-A") :=
  ⟨⟨rfl, ((value_row_id_and_code_id (fun _ => none) (VRow.mk "7" "L" "P" "" "" [])).2.2 rfl).2⟩,
   ⟨by decide, (value_row_id_and_code_id (fun _ => none) (VRow.mk "8" "L" "P" "A" "" [])).2.1 (by decide)⟩⟩

/-- C2: for every raw CodeTable row, the output row's ID is
`{Parameter_ID}-{Name}` with every literal `'?'` in the Name replaced by
`'NA'` (the renumbered name contains no `'?'`), and all other fields are
written unchanged. -/
theorem code_row_renumbering (r : CRow) :
    (transformCode r).ID = r.Parameter_ID ++ "-" ++ replaceQ r.Name ∧
    (∀ c ∈ (replaceQ r.Name).data, c ≠ '?') ∧
    (transformCode r).Parameter_ID = r.Parameter_ID ∧
    (transformCode r).Name = r.Name ∧
    (transformCode r).Description = r.Description :=
  ⟨rfl, replaceQ_no_qmark r.Name, rfl, rfl, rfl⟩

theorem code_row_renumbering_witness :
    (transformCode (CRow.mk "c9" "P" "?" "d")).ID = "P-NA" ∧
    (transformCode (CRow.mk "c9" "P" "?" "d")).Description = "d" :=
  ⟨((code_row_renumbering (CRow.mk "c9" "P" "?" "d")).1).trans (by decide),
   (code_row_renumbering (CRow.mk "c9" "P" "?" "d")).2.2.2.2⟩

/-- C6: the Example_ID list of an output value row is looked up in the
valueexample grouping under the row's original raw ID — the lookup
(`valueStep1`) leaves the ID untouched and precedes the rewrite of the ID to
`{Language_ID}-{Parameter_ID}` (`valueStep2`). -/
theorem value_lookup_precedes_renumber (vs : String → Option (List String)) (r : VRow) :
    transformValue vs r = valueStep3 (valueStep2 (valueStep1 vs r)) ∧
    (valueStep1 vs r).ID = r.ID ∧
    (valueStep1 vs r).Example_ID = (vs r.ID).getD [] ∧
    (transformValue vs r).Example_ID = (vs r.ID).getD [] ∧
    (transformValue vs r).ID = r.Language_ID ++ "-" ++ r.Parameter_ID :=
  ⟨rfl, rfl, rfl, rfl, rfl⟩

/-- C8: the reference formatter replaces every `'['` of the description with
`'('` and every `']'` with `')'` (acting as one character map), so the
cleaned description contains no square bracket; e.g. for source key `"abc"`
and description `"see [x]"` the output contains `"(x)"` and not `"[x]"`. -/
theorem ref_escapes_brackets :
    (∀ r : ESRow, ref r = referenceStr r.source (refDesc r) ∧
      refDesc r = String.mk (r.description.data.map fun c =>
        if c = '[' then '(' else if c = ']' then ')' else c) ∧
      ∀ c ∈ (refDesc r).data, c ≠ '[' ∧ c ≠ ']') ∧
    ref (ESRow.mk "1" "abc" "see [x]") = "abc[see (x)]" ∧
    ("(x)".data <:+: (ref (ESRow.mk "1" "abc" "see [x]")).data) ∧
    ¬ ("[x]".data <:+: (ref (ESRow.mk "1" "abc" "see [x]")).data) :=
  ⟨fun r => ⟨rfl, refDesc_map r, refDesc_no_brackets r⟩, by decide, by decide, by decide⟩

theorem ref_escapes_brackets_witness :
    ref (ESRow.mk "2" "k" "a[b]") = "k[a(b)]" :=
  ((ref_escapes_brackets.1 (ESRow.mk "2" "k" "a[b]")).1).trans (by decide)

/-- C9: the transform appends exactly one output row per raw input row of
LanguageTable and of ParameterTable, so the output row counts equal the
input row counts (in particular 77 Language and 235 Parameter rows are
preserved). -/
theorem primary_table_counts (vdata : String → Option (String × String × String))
    (desc : String → Option String) (ccd : String → Option (List String))
    (fdata : String → Option (String × String × String × String))
    (lrows : List LRow) (prows : List PRow) (lout : List LRow) (pout : List PRow)
    (hl : transformLanguages vdata desc ccd lrows = some lout)
    (hp : transformParameters fdata prows = some pout) :
    lout.length = lrows.length ∧ pout.length = prows.length :=
  ⟨mapOpt_length hl, mapOpt_length hp⟩

theorem primary_table_counts_witness :
    (LRow.mk "l1" "n" "r" "t" "a" "d" [] :: []).length = (LRow.mk "l1" "n" "" "" "" "" [] :: []).length ∧
    (PRow.mk "p1" "n" "es" "cat" "90" "50" :: []).length = (PRow.mk "p1" "n" "" "" "" "" :: []).length :=
  primary_table_counts (fun _ => some ("r", "t", "a")) (fun _ => some "d")
    (fun _ => some []) (fun _ => some ("es", "cat", "90", "50"))
    (LRow.mk "l1" "n" "" "" "" "" [] :: []) (PRow.mk "p1" "n" "" "" "" "" :: [])
    (LRow.mk "l1" "n" "r" "t" "a" "d" [] :: []) (PRow.mk "p1" "n" "es" "cat" "90" "50" :: [])
    (by decide) (by decide)

/-- C10: history augmentation reads only the entry under key `'2013'` of
changes.json and appends exactly one row per change tuple, with Version the
constant `"1.0"` and Code_ID `{feature}-{code}` where each `'?'` in the code
is replaced by `'NA'`. -/
theorem history_from_2013 (changes : String → Option (List Change)) (entries : List Change)
    (h : changes "2013" = some entries) :
    historyRows changes = some (entries.map historyRow) ∧
    (entries.map historyRow).length = entries.length ∧
    (∀ c ∈ entries, (historyRow c).Version = "1.0" ∧
      (historyRow c).Language_ID = c.lid ∧
      (historyRow c).Parameter_ID = c.pid ∧
      (historyRow c).Code_ID = c.pid ++ "-" ++ replaceQ c.cid) ∧
    (∀ changes2 : String → Option (List Change),
      changes2 "2013" = changes "2013" → historyRows changes2 = historyRows changes) :=
  ⟨by simp [historyRows, h], by simp, fun c _ => ⟨rfl, rfl, rfl, rfl⟩,
   fun c2 h2 => by simp [historyRows, h2]⟩

theorem history_from_2013_witness :
    historyRows (fun k => if k = "2013" then some (Change.mk "l" "p" "?" "" :: []) else none) =
      some (HistoryRow.mk "1.0" "l" "p" "p-NA" :: []) :=
  ((history_from_2013
      (fun k => if k = "2013" then some (Change.mk "l" "p" "?" "" :: []) else none)
      (Change.mk "l" "p" "?" "" :: []) (by decide)).1).trans (by decide)

/-- C3, counterexample to the claim as stated: a value row whose raw rating
`"?"` is literally one of the code names declared for its parameter, yet
whose output Code_ID `P-?` matches no renumbered code ID (the CodeTable
renumbering maps the name `"?"` to `NA`, while the value-side Code_ID keeps
the rating verbatim). -/
theorem value_code_fk_counterexample :
    (∀ v ∈ (VRow.mk "1" "L" "P" "?" "" [] :: []),
      ∃ c ∈ (CRow.mk "c1" "P" "?" "" :: []),
        c.Parameter_ID = v.Parameter_ID ∧ c.Name = v.Value) ∧
    ¬ (∀ v' ∈ transformValues (fun _ => none) (VRow.mk "1" "L" "P" "?" "" [] :: []),
        ∃ c' ∈ transformCodes (CRow.mk "c1" "P" "?" "" :: []),
          v'.Code_ID = c'.ID) := by
  constructor
  · decide
  · decide

/-- C3, amended: every output ValueTable row's Code_ID resolves to the
renumbered ID of some output CodeTable row, for every raw input in which
each value row's effective rating (its Value when non-empty, else `'NA'`)
equals the `'?'→'NA'`-normalized name of some code declared for its
parameter. -/
theorem value_code_fk_resolves (vs : String → Option (List String))
    (values : List VRow) (codes : List CRow)
    (h : ∀ v ∈ values, ∃ c ∈ codes,
      c.Parameter_ID = v.Parameter_ID ∧ replaceQ c.Name = pyOr v.Value "NA") :
    ∀ v' ∈ transformValues vs values,
      ∃ c' ∈ transformCodes codes, v'.Code_ID = c'.ID := by
  intro v' hv'
  rw [transformValues, List.mem_map] at hv'
  obtain ⟨v, hv, rfl⟩ := hv'
  obtain ⟨c, hc, hpid, hname⟩ := h v hv
  refine ⟨transformCode c, List.mem_map_of_mem _ hc, ?_⟩
  show v.Parameter_ID ++ "-" ++ pyOr v.Value "NA" = c.Parameter_ID ++ "-" ++ replaceQ c.Name
  rw [hpid, hname]

theorem value_code_fk_resolves_witness :
    ∃ c' ∈ transformCodes (CRow.mk "c1" "P" "A" "" :: []),
      (transformValue (fun _ => none) (VRow.mk "1" "L" "P" "A" "" [])).Code_ID = c'.ID :=
  value_code_fk_resolves (fun _ => none) (VRow.mk "1" "L" "P" "A" "" [] :: [])
    (CRow.mk "c1" "P" "A" "" :: []) (by decide)
    (transformValue (fun _ => none) (VRow.mk "1" "L" "P" "A" "" [])) (by decide)

/-- C4, counterexample to the claim as stated: two distinct examplesource
rows share the same composite sort key `(int(example), source)` (they differ
only in the description), so the per-owner list order is not fully
determined by the sort key — the two orderings of the same rows yield
different grouped lists. -/
theorem grouping_deterministic_counterexample :
    (ESRow.mk "1" "s" "a" :: ESRow.mk "1" "s" "b" :: []).Perm
      (ESRow.mk "1" "s" "b" :: ESRow.mk "1" "s" "a" :: []) ∧
    esKey (ESRow.mk "1" "s" "a") = esKey (ESRow.mk "1" "s" "b") ∧
    examplesource (ESRow.mk "1" "s" "a" :: ESRow.mk "1" "s" "b" :: []) "1" ≠
      examplesource (ESRow.mk "1" "s" "b" :: ESRow.mk "1" "s" "a" :: []) "1" :=
  ⟨List.Perm.swap (ESRow.mk "1" "s" "b") (ESRow.mk "1" "s" "a") [], by decide, by decide⟩

/-- C4, amended: each one-to-many grouping sorts the association rows by its
composite key and then groups consecutive rows by owner; whenever no two
distinct association rows share the same composite sort key, the resulting
per-owner lists are fully determined by that key — any permutation of the
input rows yields identical groupings. -/
theorem grouping_deterministic :
    (∀ l1 l2 : List CCRow, l1.Perm l2 →
      (∀ a ∈ l1, ∀ b ∈ l1, ccKey a = ccKey b → a = b) → cc l1 = cc l2) ∧
    (∀ l1 l2 : List ESRow, l1.Perm l2 →
      (∀ a ∈ l1, ∀ b ∈ l1, esKey a = esKey b → a = b) →
        examplesource l1 = examplesource l2) ∧
    (∀ l1 l2 : List VERow, l1.Perm l2 →
      (∀ a ∈ l1, ∀ b ∈ l1, veKey a = veKey b → a = b) →
        valuesentence l1 = valuesentence l2) := by
  refine ⟨fun l1 l2 hp hinj => ?_, fun l1 l2 hp hinj => ?_, fun l1 l2 hp hinj => ?_⟩
  · unfold cc
    rw [pySorted_perm_eq ccKey hp hinj]
  · unfold examplesource
    rw [pySorted_perm_eq esKey hp hinj]
  · unfold valuesentence
    rw [pySorted_perm_eq veKey hp hinj]

theorem grouping_deterministic_witness :
    cc (CCRow.mk "1" "2" "3" :: CCRow.mk "1" "4" "5" :: []) =
      cc (CCRow.mk "1" "4" "5" :: CCRow.mk "1" "2" "3" :: []) :=
  grouping_deterministic.1 (CCRow.mk "1" "2" "3" :: CCRow.mk "1" "4" "5" :: [])
    (CCRow.mk "1" "4" "5" :: CCRow.mk "1" "2" "3" :: [])
    (List.Perm.swap (CCRow.mk "1" "4" "5") (CCRow.mk "1" "2" "3") []) (by decide)

/-- C5: a required join (LanguageTable against variety.csv,
contributions.csv and cc.csv; ParameterTable against feature.csv) aborts
with an error exactly when some row's ID is absent from the corresponding
auxiliary mapping, while the optional joins Example→Source and
Value→Example yield an empty list on a missing key and never abort. -/
theorem required_join_abort_iff (vdata : String → Option (String × String × String))
    (desc : String → Option String) (ccd : String → Option (List String))
    (fdata : String → Option (String × String × String × String))
    (lrows : List LRow) (prows : List PRow) :
    (transformLanguages vdata desc ccd lrows = none ↔
      ∃ r ∈ lrows, vdata r.ID = none ∨ desc r.ID = none ∨ ccd r.ID = none) ∧
    (transformParameters fdata prows = none ↔
      ∃ r ∈ prows, fdata r.ID = none) ∧
    (∀ (es : String → Option (List String)) (r : ExRow),
      es r.ID = none → (transformExample es r).Source = []) ∧
    (∀ (vs : String → Option (List String)) (r : VRow),
      vs r.ID = none → (transformValue vs r).Example_ID = []) := by
  refine ⟨?_, ?_, ?_, ?_⟩
  · rw [← Option.not_isSome_iff_eq_none, transformLanguages, mapOpt_isSome_iff]
    constructor
    · intro h
      by_contra hno
      push_neg at hno
      apply h
      intro r hr
      have := hno r hr
      push_neg at this
      unfold transformLanguage
      obtain ⟨h1, h2, h3⟩ := this
      obtain ⟨v, hv⟩ := Option.ne_none_iff_exists'.mp h1
      obtain ⟨d, hd⟩ := Option.ne_none_iff_exists'.mp h2
      obtain ⟨cs, hcs⟩ := Option.ne_none_iff_exists'.mp h3
      rw [hv, hd, hcs]
      rfl
    · intro ⟨r, hr, hmiss⟩ hall
      have := hall r hr
      unfold transformLanguage at this
      rcases hmiss with hm | hm | hm <;> rw [hm] at this <;> simp at this
  · rw [← Option.not_isSome_iff_eq_none, transformParameters, mapOpt_isSome_iff]
    constructor
    · intro h
      by_contra hno
      push_neg at hno
      apply h
      intro r hr
      have := hno r hr
      obtain ⟨f, hf⟩ := Option.ne_none_iff_exists'.mp this
      unfold transformParameter
      rw [hf]
      rfl
    · intro ⟨r, hr, hmiss⟩ hall
      have := hall r hr
      unfold transformParameter at this
      rw [hmiss] at this
      simp at this
  · intro es r h
    show (es r.ID).getD [] = []
    rw [h]
    rfl
  · intro vs r h
    show (vs r.ID).getD [] = []
    rw [h]
    rfl

theorem required_join_abort_iff_witness :
    transformLanguages (fun _ => none) (fun _ => some "d") (fun _ => some [])
      (LRow.mk "l1" "n" "" "" "" "" [] :: []) = none ∧
    (transformExample (fun _ => none) (ExRow.mk "e1" "t" [])).Source = [] :=
  ⟨(required_join_abort_iff (fun _ => none) (fun _ => some "d") (fun _ => some [])
      (fun _ => none) (LRow.mk "l1" "n" "" "" "" "" [] :: []) []).1.mpr
      ⟨LRow.mk "l1" "n" "" "" "" "" [], List.mem_cons_self _ _, Or.inl rfl⟩,
   (required_join_abort_iff (fun _ => none) (fun _ => some "d") (fun _ => some [])
      (fun _ => none) [] []).2.2.1 (fun _ => none) (ExRow.mk "e1" "t" []) rfl⟩

/-- C7, counterexample to the claim as stated: two raw value rows with
distinct (Language_ID, Parameter_ID) pairs collide after renumbering when a
Language_ID contains `'-'`: `("a-b", "c")` and `("a", "b-c")` both map to
the ID `"a-b-c"`. -/
theorem value_ids_unique_counterexample :
    ((VRow.mk "1" "a-b" "c" "" "" []).Language_ID, (VRow.mk "1" "a-b" "c" "" "" []).Parameter_ID) ≠
      ((VRow.mk "2" "a" "b-c" "" "" []).Language_ID, (VRow.mk "2" "a" "b-c" "" "" []).Parameter_ID) ∧
    ¬ ((transformValues (fun _ => none)
        (VRow.mk "1" "a-b" "c" "" "" [] :: VRow.mk "2" "a" "b-c" "" "" [] :: [])).Pairwise
          fun a b => a.ID ≠ b.ID) := by
  constructor
  · decide
  · intro h
    have := (List.pairwise_cons.mp h).1
    exact this (transformValue (fun _ => none) (VRow.mk "2" "a" "b-c" "" "" []))
      (List.mem_cons_self _ _) (by decide)

/-- C7, amended: after renumbering, Value.ID is a deterministic function of
(Language_ID, Parameter_ID); for every raw input in which no two value rows
share the same (Language_ID, Parameter_ID) pair and no Language_ID contains
the character `'-'`, no two output value rows share an ID. -/
theorem value_ids_unique (vs : String → Option (List String)) (rows : List VRow)
    (hpair : rows.Pairwise fun a b =>
      (a.Language_ID, a.Parameter_ID) ≠ (b.Language_ID, b.Parameter_ID))
    (hdash : ∀ r ∈ rows, '-' ∉ r.Language_ID.data) :
    (transformValues vs rows).Pairwise fun a b => a.ID ≠ b.ID := by
  rw [transformValues, List.pairwise_map]
  refine List.Pairwise.imp_of_mem ?_ hpair
  intro a b ha hb hne heq
  have hid : a.Language_ID ++ "-" ++ a.Parameter_ID = b.Language_ID ++ "-" ++ b.Parameter_ID := heq
  have := dash_append_inj (hdash a ha) (hdash b hb) hid
  exact hne (by rw [this.1, this.2])

theorem value_ids_unique_witness :
    (transformValues (fun _ => none)
      (VRow.mk "1" "A" "P" "" "" [] :: VRow.mk "2" "B" "P" "" "" [] :: [])).Pairwise
        fun a b => a.ID ≠ b.ID :=
  value_ids_unique (fun _ => none)
    (VRow.mk "1" "A" "P" "" "" [] :: VRow.mk "2" "B" "P" "" "" [] :: [])
    (by decide) (by decide)

end EWave
